import Mathlib

/-!
Shallow embedding of the SVG element of crates/gpui/src/elements/svg.rs:
the sizing resolution performed in request_layout, the transformation
composition of Transformation.into_matrix, and the draw-call dispatch of
paint. Machine floats of the source are modelled as exact rationals for
the sizing arithmetic and as reals for the transformation matrices.
Path identifiers (SharedString in the source) are modelled as natural
numbers.
-/

namespace GpuiSvg

/-- Intrinsic size of the vector-graphics content, from usvg tree.size():
width and height as exact numbers standing for the f32 fields of
Size of f32. -/
structure IntrinsicSize where
  w : ℚ
  h : ℚ
deriving DecidableEq

/-- AbsoluteLength of gpui: pixels or rems. -/
inductive AbsoluteLength where
  | pixels (p : ℚ)
  | rems (r : ℚ)
deriving DecidableEq

/-- Conversion of AbsoluteLength.to_pixels with the given rem size. -/
def AbsoluteLength.toPixels : AbsoluteLength → ℚ → ℚ
  | AbsoluteLength.pixels p, _ => p
  | AbsoluteLength.rems r, remSize => r * remSize

/-- DefiniteLength of gpui: an absolute length or a fraction of the
parent (relative length). -/
inductive DefiniteLength where
  | absolute (l : AbsoluteLength)
  | fraction (f : ℚ)
deriving DecidableEq

/-- Length of gpui: a definite length or auto. -/
inductive Length where
  | auto
  | definite (l : DefiniteLength)
deriving DecidableEq

/-- Embedding of the source expression px(x).into(): a Length that is
Definite(Absolute(Pixels x)). -/
def pxInto (q : ℚ) : Length :=
  Length.definite (DefiniteLength.absolute (AbsoluteLength.pixels q))

/-- The slice of the layout style that request_layout reads and writes:
the declared aspect ratio hint and the two size axes. -/
structure SvgStyle where
  aspect : Option ℚ
  width : Length
  height : Length
deriving DecidableEq

/-- Embedding of the style mutation in Svg.request_layout once the probe
result is known: with no intrinsic size the style is returned unchanged;
otherwise the aspect ratio is set to width over height, an auto width is
derived (from an absolute definite height via ar, else the raw intrinsic
width), and then an auto height is derived from the updated width (from
an absolute definite width dividing by ar, else the raw intrinsic
height). The sequential mutation of the source is reflected in h1
reading w1. -/
def resolveStyle (sz : Option IntrinsicSize) (remSize : ℚ) (style : SvgStyle) : SvgStyle :=
  match sz with
  | none => style
  | some s =>
    let ar := s.w / s.h
    let w1 :=
      match style.width, style.height with
      | Length.auto, Length.definite (DefiniteLength.absolute a) =>
          pxInto (ar * a.toPixels remSize)
      | Length.auto, _ => pxInto s.w
      | w, _ => w
    let h1 :=
      match style.height, w1 with
      | Length.auto, Length.definite (DefiniteLength.absolute a) =>
          pxInto (a.toPixels remSize / ar)
      | Length.auto, _ => pxInto s.h
      | h, _ => h
    { aspect := some ar, width := w1, height := h1 }

/-- Point of f32 or Pixels components, modelled with real coordinates. -/
structure Vec2 where
  x : ℝ
  y : ℝ

/-- Size of f32 components, modelled with real coordinates. -/
structure SizeF where
  w : ℝ
  h : ℝ

/-- Point.scale of gpui: multiply both coordinates by a factor. -/
noncomputable def Vec2.scale (v : Vec2) (factor : ℝ) : Vec2 :=
  ⟨v.x * factor, v.y * factor⟩

/-- Negate of gpui geometry: negate both coordinates. -/
noncomputable def Vec2.neg (v : Vec2) : Vec2 :=
  ⟨-v.x, -v.y⟩

noncomputable instance : Add Vec2 :=
  ⟨fun a b => ⟨a.x + b.x, a.y + b.y⟩⟩

/-- Transformation of svg.rs: a scale along each axis, a translation and a
rotation angle in radians. -/
structure Transformation where
  scale : SizeF
  translate : Vec2
  rotate : ℝ

/-- Default for Transformation: scale (1, 1), translate (0, 0), rotate 0. -/
noncomputable def Transformation.default : Transformation :=
  ⟨⟨1, 1⟩, ⟨0, 0⟩, 0⟩

/-- Modelled from the spec: the affine transform matrix produced by the
transformation composer (the gpui TransformationMatrix, which is outside
this source file), as a 2 by 2 linear part plus a translation vector. -/
structure TMatrix where
  m00 : ℝ
  m01 : ℝ
  m10 : ℝ
  m11 : ℝ
  tx : ℝ
  ty : ℝ

/-- Modelled from the spec: the identity matrix Unit(). -/
noncomputable def TMatrix.unit : TMatrix :=
  ⟨1, 0, 0, 1, 0, 0⟩

/-- Modelled from the spec: affine composition; the right factor is
applied first, matching the remark in the source that the chain reads as
matrix multiplications from the bottom. -/
noncomputable def TMatrix.compose (a b : TMatrix) : TMatrix :=
  ⟨a.m00 * b.m00 + a.m01 * b.m10, a.m00 * b.m01 + a.m01 * b.m11,
   a.m10 * b.m00 + a.m11 * b.m10, a.m10 * b.m01 + a.m11 * b.m11,
   a.m00 * b.tx + a.m01 * b.ty + a.tx,
   a.m10 * b.tx + a.m11 * b.ty + a.ty⟩

/-- Modelled from the spec: post-compose with a translation matrix. -/
noncomputable def TMatrix.translate (m : TMatrix) (v : Vec2) : TMatrix :=
  m.compose ⟨1, 0, 0, 1, v.x, v.y⟩

/-- Modelled from the spec: post-compose with a rotation matrix of the
given angle in radians. -/
noncomputable def TMatrix.rotate (m : TMatrix) (angle : ℝ) : TMatrix :=
  m.compose ⟨Real.cos angle, -Real.sin angle, Real.sin angle, Real.cos angle, 0, 0⟩

/-- Modelled from the spec: post-compose with an axis-aligned scaling
matrix. -/
noncomputable def TMatrix.scale (m : TMatrix) (s : SizeF) : TMatrix :=
  m.compose ⟨s.w, 0, 0, s.h, 0, 0⟩

/-- Modelled from the spec: the affine action of a matrix on a point. -/
noncomputable def TMatrix.apply (m : TMatrix) (v : Vec2) : Vec2 :=
  ⟨m.m00 * v.x + m.m01 * v.y + m.tx, m.m10 * v.x + m.m11 * v.y + m.ty⟩

/-- Embedding of Transformation.into_matrix of svg.rs: unit, then
translate by center and translation both scaled by the device scale
factor, then rotate, then scale, then translate by the negated scaled
center. -/
noncomputable def Transformation.intoMatrix (t : Transformation) (center : Vec2)
    (scaleFactor : ℝ) : TMatrix :=
  ((((TMatrix.unit.translate
      (center.scale scaleFactor + t.translate.scale scaleFactor)).rotate
        t.rotate).scale t.scale).translate (center.scale scaleFactor).neg)

/-- Modelled from the spec: the transformation composer contract, namely
Result is Unit() translated by p + t_scaled, rotated by t.rotate, scaled
by t.scale, then translated by the negation of p, where p is the pivot
and t_scaled the translation, both pre-scaled by the device scale. -/
noncomputable def composeSpec (t : Transformation) (pivot : Vec2) (deviceScale : ℝ) : TMatrix :=
  ((((TMatrix.unit.translate
      (pivot.scale deviceScale + t.translate.scale deviceScale)).rotate
        t.rotate).scale t.scale).translate (pivot.scale deviceScale).neg)

/-- The Svg element node of svg.rs without the shared interactivity: the
optional transformation, the lazily cached intrinsic size, and the two
path identifiers. -/
structure SvgNode where
  transformation : Option Transformation
  size : Option IntrinsicSize
  path : Option ℕ
  externalPath : Option ℕ

/-- The svg() constructor: every field empty. -/
def svgNew : SvgNode :=
  ⟨none, none, none, none⟩

/-- The path builder of Svg. -/
def SvgNode.withPath (n : SvgNode) (p : ℕ) : SvgNode :=
  { n with path := some p }

/-- The external_path builder of Svg. -/
def SvgNode.withExternalPath (n : SvgNode) (p : ℕ) : SvgNode :=
  { n with externalPath := some p }

/-- The with_transformation builder of Svg. -/
def SvgNode.withTransformation (n : SvgNode) (t : Transformation) : SvgNode :=
  { n with transformation := some t }

/-- Embedding of the probing and caching at the top of request_layout:
the probe function stands for loading the asset bytes at the primary
path and parsing them into a tree (none when loading or parsing fails);
it is consulted only when the cache is empty and the primary path is
set. -/
def updateCachedSize (n : SvgNode) (probe : ℕ → Option IntrinsicSize) : Option IntrinsicSize :=
  match n.size with
  | some s => some s
  | none =>
    match n.path with
    | some p => probe p
    | none => none

/-- Embedding of the style closure of Svg.request_layout: update the
cached intrinsic size, then resolve the style against it; returns the
updated node and the style handed to the layout engine. -/
def requestLayoutStep (n : SvgNode) (probe : ℕ → Option IntrinsicSize) (remSize : ℚ)
    (style : SvgStyle) : SvgNode × SvgStyle :=
  let sz := updateCachedSize n probe
  ({ n with size := sz }, resolveStyle sz remSize style)

/-- Foreground color resolved from the style text color, an abstract
token. -/
structure Color where
  val : ℕ

/-- Raw asset bytes, abstract. -/
abbrev Bytes := List ℕ

/-- Bounds of Pixels, modelled with real coordinates. -/
structure BoundsF where
  origin : Vec2
  size : SizeF

/-- Bounds.center of gpui: origin plus half the size on each axis. -/
noncomputable def BoundsF.center (b : BoundsF) : Vec2 :=
  ⟨b.origin.x + b.size.w / 2, b.origin.y + b.size.h / 2⟩

/-- A draw call as submitted through paint_svg: destination bounds, the
path identifier, the optional raw bytes override, the transformation
matrix and the color. -/
structure DrawCall where
  bounds : BoundsF
  path : ℕ
  bytes : Option Bytes
  transform : TMatrix
  color : Color

/-- The transformation matrix paint uses: the node transformation
composed at the bounds center with the window scale factor, or the unit
matrix when the node has none (unwrap_or_default). -/
noncomputable def paintTransform (n : SvgNode) (bounds : BoundsF) (scaleFactor : ℝ) : TMatrix :=
  match n.transformation with
  | some t => t.intoMatrix bounds.center scaleFactor
  | none => TMatrix.unit

/-- Embedding of the drawing closure of Svg.paint: with the primary path
set and a resolved color, submit one draw call with no raw bytes
override; otherwise with the external path set and a color, consult the
asset fetch (none while the asset is unresolved or its read failed) and
either skip or submit one call carrying the bytes; with no resolved
color nothing is drawn. The returned option is the submitted draw
call. -/
noncomputable def paint (n : SvgNode) (color : Option Color) (bounds : BoundsF)
    (scaleFactor : ℝ) (fetch : ℕ → Option Bytes) : Option DrawCall :=
  match n.path, color with
  | some p, some c => some ⟨bounds, p, none, paintTransform n bounds scaleFactor, c⟩
  | _, _ =>
    match n.externalPath, color with
    | some e, some c =>
      match fetch e with
      | none => none
      | some bs => some ⟨bounds, e, some bs, paintTransform n bounds scaleFactor, c⟩
    | _, _ => none

/-- Componentwise description of Vec2 addition. -/
theorem Vec2.add_def (a b : Vec2) : a + b = ⟨a.x + b.x, a.y + b.y⟩ := rfl

example :
    resolveStyle (some ⟨8, 4⟩) 16 ⟨none, Length.auto, Length.auto⟩
      = ⟨some 2, pxInto 8, pxInto 4⟩ := by
  norm_num [resolveStyle, pxInto, AbsoluteLength.toPixels]

example :
    resolveStyle (some ⟨8, 4⟩) 16
        ⟨none, Length.auto, Length.definite (DefiniteLength.absolute (AbsoluteLength.pixels 100))⟩
      = ⟨some 2, pxInto 200,
          Length.definite (DefiniteLength.absolute (AbsoluteLength.pixels 100))⟩ := by
  norm_num [resolveStyle, pxInto, AbsoluteLength.toPixels]

/-- C1: for every positive intrinsic size (w, h), when both style axes are
auto, resolveStyle derives width = Definite(Absolute(Pixels w)) and
height = Definite(Absolute(Pixels h)): each axis ends up at its own raw
intrinsic dimension. -/
theorem resolve_both_auto (w h remSize : ℚ) (a : Option ℚ) (hw : 0 < w) (hh : 0 < h) :
    (resolveStyle (some ⟨w, h⟩) remSize ⟨a, Length.auto, Length.auto⟩).width = pxInto w ∧
    (resolveStyle (some ⟨w, h⟩) remSize ⟨a, Length.auto, Length.auto⟩).height = pxInto h := by
  have hw0 : w ≠ 0 := ne_of_gt hw
  have hh0 : h ≠ 0 := ne_of_gt hh
  refine ⟨?_, ?_⟩ <;> simp [resolveStyle, pxInto, AbsoluteLength.toPixels]
  field_simp

/-- Witness for resolve_both_auto at intrinsic size (2, 1). -/
theorem resolve_both_auto_wit :
    (0:ℚ) < 2 ∧ (0:ℚ) < 1 ∧
    ((resolveStyle (some ⟨2, 1⟩) 16 ⟨none, Length.auto, Length.auto⟩).width = pxInto 2 ∧
     (resolveStyle (some ⟨2, 1⟩) 16 ⟨none, Length.auto, Length.auto⟩).height = pxInto 1) :=
  ⟨by decide, by decide, resolve_both_auto 2 1 16 none (by decide) (by decide)⟩

/-- C2: for every positive intrinsic size with ar = w / h, an auto width is
derived from a definite absolute height via multiplication by ar, while a
fraction (relative) height or an auto height makes the width fall back to
the raw intrinsic width; symmetrically an auto height is derived from a
definite absolute width dividing by ar, while a fraction width or an auto
width makes the height fall back to the raw intrinsic height. -/
theorem resolve_definite_anchor (w h remSize : ℚ) (a : Option ℚ)
    (al : AbsoluteLength) (f : ℚ) (hw : 0 < w) (hh : 0 < h) :
    ((resolveStyle (some ⟨w, h⟩) remSize
        ⟨a, Length.auto, Length.definite (DefiniteLength.absolute al)⟩).width
      = pxInto (w / h * al.toPixels remSize)) ∧
    ((resolveStyle (some ⟨w, h⟩) remSize
        ⟨a, Length.auto, Length.definite (DefiniteLength.fraction f)⟩).width
      = pxInto w) ∧
    ((resolveStyle (some ⟨w, h⟩) remSize ⟨a, Length.auto, Length.auto⟩).width = pxInto w) ∧
    ((resolveStyle (some ⟨w, h⟩) remSize
        ⟨a, Length.definite (DefiniteLength.absolute al), Length.auto⟩).height
      = pxInto (al.toPixels remSize / (w / h))) ∧
    ((resolveStyle (some ⟨w, h⟩) remSize
        ⟨a, Length.definite (DefiniteLength.fraction f), Length.auto⟩).height
      = pxInto h) ∧
    ((resolveStyle (some ⟨w, h⟩) remSize ⟨a, Length.auto, Length.auto⟩).height = pxInto h) := by
  have hw0 : w ≠ 0 := ne_of_gt hw
  have hh0 : h ≠ 0 := ne_of_gt hh
  refine ⟨?_, ?_, ?_, ?_, ?_, ?_⟩ <;> simp [resolveStyle, pxInto, AbsoluteLength.toPixels]
  field_simp

/-- Witness for resolve_definite_anchor at intrinsic size (6, 3), an
absolute anchor of 100 pixels and a fraction of one half. -/
theorem resolve_definite_anchor_wit :
    (0:ℚ) < 6 ∧ (0:ℚ) < 3 ∧
    (((resolveStyle (some ⟨6, 3⟩) 16
        ⟨none, Length.auto,
          Length.definite (DefiniteLength.absolute (AbsoluteLength.pixels 100))⟩).width
      = pxInto (6 / 3 * (AbsoluteLength.pixels 100).toPixels 16)) ∧
    ((resolveStyle (some ⟨6, 3⟩) 16
        ⟨none, Length.auto, Length.definite (DefiniteLength.fraction (1 / 2))⟩).width
      = pxInto 6) ∧
    ((resolveStyle (some ⟨6, 3⟩) 16 ⟨none, Length.auto, Length.auto⟩).width = pxInto 6) ∧
    ((resolveStyle (some ⟨6, 3⟩) 16
        ⟨none, Length.definite (DefiniteLength.absolute (AbsoluteLength.pixels 100)),
          Length.auto⟩).height
      = pxInto ((AbsoluteLength.pixels 100).toPixels 16 / (6 / 3))) ∧
    ((resolveStyle (some ⟨6, 3⟩) 16
        ⟨none, Length.definite (DefiniteLength.fraction (1 / 2)), Length.auto⟩).height
      = pxInto 3) ∧
    ((resolveStyle (some ⟨6, 3⟩) 16 ⟨none, Length.auto, Length.auto⟩).height = pxInto 3)) :=
  ⟨by decide, by decide,
    resolve_definite_anchor 6 3 16 none (AbsoluteLength.pixels 100) (1 / 2)
      (by decide) (by decide)⟩

/-- C7: when the intrinsic size is absent the style is returned unchanged
(no aspect ratio and no derived lengths are written), and when the
intrinsic size is present the declared aspect ratio is always set to
w / h, whatever the two style axes are. -/
theorem resolve_absent_and_aspect (remSize : ℚ) (style : SvgStyle) (s : IntrinsicSize) :
    resolveStyle none remSize style = style ∧
    (resolveStyle (some s) remSize style).aspect = some (s.w / s.h) := by
  exact ⟨rfl, by simp [resolveStyle]⟩

/-- C8: resolveStyle never overwrites an already definite style length:
an axis whose input value is not auto keeps its input value. -/
theorem resolve_preserves_definite (sz : Option IntrinsicSize) (remSize : ℚ)
    (style : SvgStyle) :
    (style.width ≠ Length.auto → (resolveStyle sz remSize style).width = style.width) ∧
    (style.height ≠ Length.auto → (resolveStyle sz remSize style).height = style.height) := by
  obtain ⟨a, wl, hl⟩ := style
  cases sz with
  | none => exact ⟨fun _ => rfl, fun _ => rfl⟩
  | some s =>
    constructor
    · intro hw
      cases wl with
      | auto => exact absurd rfl hw
      | definite d => simp [resolveStyle]
    · intro hh
      cases hl with
      | auto => exact absurd rfl hh
      | definite d => simp [resolveStyle]

/-- Witness for resolve_preserves_definite at a style whose two axes are
definite, with an intrinsic size present. -/
theorem resolve_preserves_definite_wit :
    ((⟨none, pxInto 5, pxInto 7⟩ : SvgStyle).width ≠ Length.auto ∧
     (⟨none, pxInto 5, pxInto 7⟩ : SvgStyle).height ≠ Length.auto) ∧
    ((resolveStyle (some ⟨2, 1⟩) 16 ⟨none, pxInto 5, pxInto 7⟩).width
        = (⟨none, pxInto 5, pxInto 7⟩ : SvgStyle).width ∧
     (resolveStyle (some ⟨2, 1⟩) 16 ⟨none, pxInto 5, pxInto 7⟩).height
        = (⟨none, pxInto 5, pxInto 7⟩ : SvgStyle).height) :=
  ⟨⟨by decide, by decide⟩,
    ⟨(resolve_preserves_definite (some ⟨2, 1⟩) 16 ⟨none, pxInto 5, pxInto 7⟩).1 (by decide),
     (resolve_preserves_definite (some ⟨2, 1⟩) 16 ⟨none, pxInto 5, pxInto 7⟩).2 (by decide)⟩⟩

/-- C3: into_matrix composes exactly the matrix the spec prescribes, and
its action on any point translates the pivot to the origin, scales,
rotates, and translates back by the pivot plus the transformation's own
translation, with pivot and translation pre-scaled by the device scale
factor. -/
theorem intoMatrix_eq_spec (t : Transformation) (pivot : Vec2) (ds : ℝ) :
    t.intoMatrix pivot ds = composeSpec t pivot ds ∧
    ∀ v : Vec2, (t.intoMatrix pivot ds).apply v =
      ⟨Real.cos t.rotate * (t.scale.w * (v.x - ds * pivot.x))
          - Real.sin t.rotate * (t.scale.h * (v.y - ds * pivot.y))
          + ds * pivot.x + ds * t.translate.x,
        Real.sin t.rotate * (t.scale.w * (v.x - ds * pivot.x))
          + Real.cos t.rotate * (t.scale.h * (v.y - ds * pivot.y))
          + ds * pivot.y + ds * t.translate.y⟩ := by
  refine ⟨rfl, fun v => ?_⟩
  simp only [Transformation.intoMatrix, TMatrix.unit, TMatrix.translate, TMatrix.rotate,
    TMatrix.scale, TMatrix.compose, TMatrix.apply, Vec2.scale, Vec2.neg, Vec2.add_def,
    Vec2.mk.injEq]
  constructor <;> ring

/-- C4: the default transformation composes to the identity matrix for
every pivot and device scale factor. -/
theorem default_intoMatrix_unit (pivot : Vec2) (ds : ℝ) :
    Transformation.default.intoMatrix pivot ds = TMatrix.unit := by
  simp only [Transformation.default, Transformation.intoMatrix, TMatrix.unit,
    TMatrix.translate, TMatrix.rotate, TMatrix.scale, TMatrix.compose, Vec2.scale, Vec2.neg,
    Vec2.add_def, Real.cos_zero, Real.sin_zero, TMatrix.mk.injEq]
  refine ⟨?_, ?_, ?_, ?_, ?_, ?_⟩ <;> ring

/-- C9: once the cached intrinsic size is set, a layout request neither
consults the probe (the result is the same for every probe function) nor
changes the cached value. -/
theorem cached_size_stable (n : SvgNode) (s : IntrinsicSize) (remSize : ℚ) (style : SvgStyle)
    (probe probe2 : ℕ → Option IntrinsicSize) (hs : n.size = some s) :
    requestLayoutStep n probe remSize style = requestLayoutStep n probe2 remSize style ∧
    (requestLayoutStep n probe remSize style).1.size = some s := by
  simp [requestLayoutStep, updateCachedSize, hs]

/-- Witness for cached_size_stable at a node whose cache holds (2, 1),
with two probes that disagree. -/
theorem cached_size_stable_wit :
    (⟨none, some ⟨2, 1⟩, some 0, none⟩ : SvgNode).size = some ⟨2, 1⟩ ∧
    (requestLayoutStep ⟨none, some ⟨2, 1⟩, some 0, none⟩ (fun _ => none) 16
        ⟨none, Length.auto, Length.auto⟩
      = requestLayoutStep ⟨none, some ⟨2, 1⟩, some 0, none⟩ (fun _ => some ⟨9, 9⟩) 16
        ⟨none, Length.auto, Length.auto⟩ ∧
     (requestLayoutStep ⟨none, some ⟨2, 1⟩, some 0, none⟩ (fun _ => none) 16
        ⟨none, Length.auto, Length.auto⟩).1.size = some ⟨2, 1⟩) :=
  ⟨rfl, cached_size_stable _ _ _ _ _ _ rfl⟩

/-- C10: probing uses only the primary path: a fresh node has no primary
path and no cached size, the external path builder touches neither, and
a layout request on a node with no primary path and empty cache acquires
no intrinsic size and returns the style unchanged whatever the probe
yields, even when the external path is set. -/
theorem no_primary_no_probe (n : SvgNode) (probe : ℕ → Option IntrinsicSize) (remSize : ℚ)
    (style : SvgStyle) (e : ℕ) (hp : n.path = none) (hs : n.size = none) :
    (svgNew.size = none ∧ svgNew.path = none) ∧
    ((n.withExternalPath e).size = n.size ∧ (n.withExternalPath e).path = n.path) ∧
    ((requestLayoutStep n probe remSize style).1.size = none ∧
     (requestLayoutStep n probe remSize style).2 = style) := by
  refine ⟨⟨rfl, rfl⟩, ⟨rfl, rfl⟩, ?_, ?_⟩ <;>
    simp [requestLayoutStep, updateCachedSize, hp, hs, resolveStyle]

/-- Witness for no_primary_no_probe at a node whose external path is set
but whose primary path is not, with a probe that would succeed. -/
theorem no_primary_no_probe_wit :
    (⟨none, none, none, some 3⟩ : SvgNode).path = none ∧
    (⟨none, none, none, some 3⟩ : SvgNode).size = none ∧
    ((svgNew.size = none ∧ svgNew.path = none) ∧
     (((⟨none, none, none, some 3⟩ : SvgNode).withExternalPath 4).size
        = (⟨none, none, none, some 3⟩ : SvgNode).size ∧
      ((⟨none, none, none, some 3⟩ : SvgNode).withExternalPath 4).path
        = (⟨none, none, none, some 3⟩ : SvgNode).path) ∧
     ((requestLayoutStep ⟨none, none, none, some 3⟩ (fun _ => some ⟨9, 9⟩) 16
        ⟨none, Length.auto, Length.auto⟩).1.size = none ∧
      (requestLayoutStep ⟨none, none, none, some 3⟩ (fun _ => some ⟨9, 9⟩) 16
        ⟨none, Length.auto, Length.auto⟩).2 = ⟨none, Length.auto, Length.auto⟩)) :=
  ⟨rfl, rfl, no_primary_no_probe _ _ _ _ _ rfl rfl⟩

/-- C5: when both the primary and the external path are set and a color
is resolved, paint submits the draw call through the primary path with
no raw bytes override, and the external fetch does not affect the
result. -/
theorem paint_primary_precedence (n : SvgNode) (p e : ℕ) (c : Color) (bounds : BoundsF)
    (sf : ℝ) (fetch fetch2 : ℕ → Option Bytes) (hp : n.path = some p)
    (_he : n.externalPath = some e) :
    paint n (some c) bounds sf fetch
      = some ⟨bounds, p, none, paintTransform n bounds sf, c⟩ ∧
    paint n (some c) bounds sf fetch = paint n (some c) bounds sf fetch2 := by
  constructor <;> simp [paint, hp]

/-- Witness for paint_primary_precedence at a node carrying both paths,
with a fetch that fails and one that succeeds. -/
theorem paint_primary_precedence_wit :
    (⟨none, none, some 1, some 2⟩ : SvgNode).path = some 1 ∧
    (⟨none, none, some 1, some 2⟩ : SvgNode).externalPath = some 2 ∧
    (paint ⟨none, none, some 1, some 2⟩ (some ⟨0⟩) ⟨⟨0, 0⟩, ⟨0, 0⟩⟩ 1 (fun _ => none)
        = some ⟨⟨⟨0, 0⟩, ⟨0, 0⟩⟩, 1, none,
            paintTransform ⟨none, none, some 1, some 2⟩ ⟨⟨0, 0⟩, ⟨0, 0⟩⟩ 1, ⟨0⟩⟩ ∧
     paint ⟨none, none, some 1, some 2⟩ (some ⟨0⟩) ⟨⟨0, 0⟩, ⟨0, 0⟩⟩ 1 (fun _ => none)
        = paint ⟨none, none, some 1, some 2⟩ (some ⟨0⟩) ⟨⟨0, 0⟩, ⟨0, 0⟩⟩ 1
            (fun _ => some [])) :=
  ⟨rfl, rfl, paint_primary_precedence _ _ _ _ _ _ _ _ rfl rfl⟩

/-- C6: when the resolved color is absent paint submits no draw call,
whatever the paths, the fetch results and the transformation. -/
theorem paint_no_color (n : SvgNode) (bounds : BoundsF) (sf : ℝ)
    (fetch : ℕ → Option Bytes) :
    paint n none bounds sf fetch = none := by
  unfold paint
  cases n.path <;> cases n.externalPath <;> simp

end GpuiSvg
